import Mathlib

/-!
Shallow embedding of the checklist-compliance application
(AmbientalSC/checklistst): the notification fanout on checklist
submission (src/App.tsx, submitChecklist), the session/profile
bootstrap (src/App.tsx, onAuthStateChanged handler), the collection
cache hooks (src/hooks/useFirestore.ts) and the generic Firestore
service adapter (src/App.tsx, FirestoreService).

JavaScript values are modelled explicitly where the code depends on
them: optional fields become Option, truthiness checks on strings
become a nonempty test, object payloads become association lists of
JavaScript values.
-/

namespace ChecklistApp

/-- User roles. `types-Alysson.ts` only lists TECHNICIAN and MANAGER,
but the `types.ts` actually imported by App.tsx is not in the sources;
App.tsx and utils/initFirestore.ts both use `UserRole.COORDINATOR`, and
the spec lists role ∈ {TECHNICIAN, MANAGER, COORDINATOR}, so the enum
is modelled with the three values. -/
inductive Role where
  | TECHNICIAN
  | MANAGER
  | COORDINATOR
deriving DecidableEq, Repr

/-- The User entity of types.ts (fields used by the modelled code). -/
structure UserR where
  id : String
  name : String
  email : String
  role : Role
  managerId : Option String
  active : Option Bool
  authUid : Option String
deriving DecidableEq, Repr

/-- The Unit entity of types.ts: managerId is a required string. -/
structure UnitR where
  id : String
  name : String
  managerId : String
  active : Option Bool
deriving DecidableEq, Repr

/-- ChecklistItemStatus of types.ts. -/
inductive ChecklistItemStatus where
  | CONFORM
  | NON_CONFORM
deriving DecidableEq, Repr

/-- ChecklistItemResult of types.ts: status may be null. -/
structure ChecklistItemResult where
  itemId : String
  status : Option ChecklistItemStatus
  observation : String
deriving DecidableEq, Repr

/-! ## Notification fanout (src/App.tsx lines 233-283)

The fanout runs inside the outer try of `submitChecklist`.  The
`notifiedManagers` set, the notifications created, the
`createNotification` calls issued and whether the outer catch fired
are tracked explicitly.  A write failure is a `createNotification`
call that throws; `fails` says which recipient ids throw. -/

structure FanoutState where
  notified : List String
  attempted : List String
  created : List String
  aborted : Bool
deriving DecidableEq, Repr

/-- An awaited `createNotification` NOT wrapped in a per-recipient
try/catch (unit manager and technician manager writes): on failure the
outer catch of submitChecklist fires and the rest of the fanout is
skipped; on success the recipient is added to `notifiedManagers`. -/
def notifyStep (fails : String → Bool) (s : FanoutState) (rid : String) : FanoutState :=
  if s.aborted then s
  else if fails rid then
    { s with attempted := s.attempted ++ [rid], aborted := true }
  else
    { s with attempted := s.attempted ++ [rid],
             created := s.created ++ [rid],
             notified := s.notified ++ [rid] }

/-- Lines 240-250: `if (unit && unit.managerId)` — truthiness of the
required string field is a nonempty test. -/
def unitStep (fails : String → Bool) (unit : Option UnitR) (s : FanoutState) : FanoutState :=
  match unit with
  | none => s
  | some u => if u.managerId ≠ "" then notifyStep fails s u.managerId else s

/-- Lines 253-263: `if (technician?.managerId && technician.managerId
!== unit?.managerId && !notifiedManagers.has(technician.managerId))`.
`unitMgrRaw` is the raw `unit?.managerId` (none when unit is absent). -/
def techStep (fails : String → Bool) (unitMgrRaw : Option String)
    (tech : Option UserR) (s : FanoutState) : FanoutState :=
  match tech with
  | none => s
  | some t =>
    match t.managerId with
    | none => s
    | some tm =>
      if tm ≠ "" ∧ unitMgrRaw ≠ some tm ∧ tm ∉ s.notified then
        notifyStep fails s tm
      else s

/-- Lines 265-282: the coordinator loop.  Each iteration skips ids
already in `notifiedManagers`; the `createNotification` here IS wrapped
in a per-iteration try/catch (failure only logs a warning), and the
loop does not add coordinator ids to `notifiedManagers`. -/
def coordStep (fails : String → Bool) (s : FanoutState) : List UserR → FanoutState
  | [] => s
  | c :: rest =>
    if c.id ∈ s.notified then coordStep fails s rest
    else
      coordStep fails
        { s with attempted := s.attempted ++ [c.id],
                 created := if fails c.id then s.created else s.created ++ [c.id] }
        rest

/-- The whole fanout of lines 238-282, given the resolved `unit` and
`technician` (the `find` results of lines 234-235) and the `users`
cache snapshot from which line 266 filters the coordinators. -/
def fanout (users : List UserR) (unit : Option UnitR) (tech : Option UserR)
    (fails : String → Bool) : FanoutState :=
  let coords := users.filter fun u =>
    decide (u.role = Role.COORDINATOR) && decide (u.active ≠ some false)
  let s1 := unitStep fails unit ⟨[], [], [], false⟩
  let s2 := techStep fails (unit.map fun u => u.managerId) tech s1
  if s2.aborted then s2 else coordStep fails s2 coords

/-- The no-failure environment: every notification write succeeds. -/
def noFail : String → Bool := fun _ => false

/-! ## Derived conformity flag (src/App.tsx lines 219-231) -/

/-- The submission payload passed to submitChecklist (Omit of id,
completionDate and hasNonConformities). -/
structure ChecklistSubmission where
  templateId : String
  unitId : String
  technicianId : String
  results : List ChecklistItemResult
deriving DecidableEq, Repr

/-- Line 223: `checklistData.results.some(r => r.status ===
ChecklistItemStatus.NON_CONFORM)`. -/
def hasNonConformities (results : List ChecklistItemResult) : Bool :=
  results.any fun r => decide (r.status = some ChecklistItemStatus.NON_CONFORM)

/-- The stored CompletedChecklist document (lines 225-229). -/
structure CompletedChecklistDoc where
  templateId : String
  unitId : String
  technicianId : String
  completionDate : String
  results : List ChecklistItemResult
  hasNonConformities : Bool
deriving DecidableEq, Repr

/-- Lines 225-229: the record written by submitChecklistToFirestore. -/
def buildCompletedChecklist (data : ChecklistSubmission) (now : String) :
    CompletedChecklistDoc :=
  { templateId := data.templateId
    unitId := data.unitId
    technicianId := data.technicianId
    completionDate := now
    results := data.results
    hasNonConformities := hasNonConformities data.results }

/-! ## Session/profile bootstrap (src/App.tsx lines 47-102)

The onAuthStateChanged handler.  `getUserByEmailAddress` catches
internally and returns null on error (useFirestore.ts lines 87-94), so
the lookup and the read-back after provisioning are total and modelled
as Option.  `provisionFails` says whether createUserInFirestore throws;
`newId` is the id it returns on success; `readBack` is the second
lookup's result. -/

structure FbUser where
  email : Option String
  displayName : Option String
deriving DecidableEq, Repr

inductive AuthStatus where
  | loading
  | authenticated
  | unauthenticated
deriving DecidableEq, Repr

/-- The user document handed to createUserInFirestore in the
auto-provisioning branch (lines 69-73). -/
structure NewUserData where
  name : String
  email : String
  role : Role
deriving DecidableEq, Repr

/-- Observable outcome of one handler run.  `currentUser = some v`
means setCurrentUser(v) was called (last value v); `none` means it was
never called.  `signedOut` records whether signOut(auth) was awaited.
`provisioned` is the payload passed to createUserInFirestore, when that
call was made. -/
structure AuthOutcome where
  status : AuthStatus
  currentUser : Option (Option UserR)
  signedOut : Bool
  provisioned : Option NewUserData
deriving DecidableEq, Repr

/-- Line 68: `firebaseUser.displayName || firebaseUser.email?.split('@')[0]
|| 'Usuário'` (JavaScript || chain on truthiness). -/
def displayNameOf (displayName : Option String) (email : String) : String :=
  match displayName with
  | some d => if d ≠ "" then d else
      (if (email.splitOn "@").headD "" ≠ "" then (email.splitOn "@").headD "" else "Usuário")
  | none =>
      (if (email.splitOn "@").headD "" ≠ "" then (email.splitOn "@").headD "" else "Usuário")

/-- The onAuthStateChanged handler body (lines 48-100). -/
def authHandler (fb : Option FbUser) (lookup : Option UserR) (provisionFails : Bool)
    (newId : String) (readBack : Option UserR) : AuthOutcome :=
  match fb with
  | none => ⟨AuthStatus.unauthenticated, some none, false, none⟩
  | some f =>
    match f.email with
    | none => ⟨AuthStatus.unauthenticated, some none, false, none⟩
    | some e =>
      if e = "" then ⟨AuthStatus.unauthenticated, some none, false, none⟩
      else
        match lookup with
        | some appUser =>
          if appUser.active = some false then
            ⟨AuthStatus.unauthenticated, some none, true, none⟩
          else
            ⟨AuthStatus.authenticated, some (some appUser), false, none⟩
        | none =>
          let name := displayNameOf f.displayName e
          let newUser : NewUserData := ⟨name, e, Role.MANAGER⟩
          if provisionFails then
            ⟨AuthStatus.unauthenticated, none, true, some newUser⟩
          else
            match readBack with
            | some created =>
              ⟨AuthStatus.authenticated, some (some created), false, some newUser⟩
            | none =>
              ⟨AuthStatus.authenticated,
               some (some ⟨newId, name, e, Role.MANAGER, none, none, none⟩),
               false, some newUser⟩

/-! ## Collection cache hooks (src/hooks/useFirestore.ts) -/

/-- The state held by useFirestoreCollection (lines 30-32). -/
structure CollectionState (T : Type) where
  data : List T
  loading : Bool
  error : Option String
deriving DecidableEq, Repr

/-- The subscription callback (lines 37-40): setData + setLoading. -/
def onSnapshotCallback {T : Type} (s : CollectionState T) (newData : List T) :
    CollectionState T :=
  { s with data := newData, loading := false }

/-- The add callback (lines 52-60): on failure set error and rethrow;
the data snapshot is never touched. -/
def hookAdd {T : Type} (s : CollectionState T) (result : Except String String) :
    CollectionState T × Except String String :=
  match result with
  | Except.ok id => (s, Except.ok id)
  | Except.error e => ({ s with error := some e }, Except.error e)

/-- The update callback (lines 62-69). -/
def hookUpdate {T : Type} (s : CollectionState T) (result : Except String Unit) :
    CollectionState T × Except String Unit :=
  match result with
  | Except.ok _ => (s, Except.ok ())
  | Except.error e => ({ s with error := some e }, Except.error e)

/-- The remove callback (lines 71-78). -/
def hookRemove {T : Type} (s : CollectionState T) (result : Except String Unit) :
    CollectionState T × Except String Unit :=
  match result with
  | Except.ok _ => (s, Except.ok ())
  | Except.error e => ({ s with error := some e }, Except.error e)

/-- What the underlying onSnapshot channel can deliver: a data
snapshot, or an error reported to the error callback. -/
inductive SnapEvent (T : Type) where
  | dataEvent (xs : List T)
  | errEvent (e : String)
deriving DecidableEq, Repr

/-- How a delivery from FirestoreService.onSnapshot (App.tsx lines
1622-1636) reaches the hook state: a data snapshot invokes the hook's
callback; the error callback only does console.error (line 1634), so
the hook state is not touched. -/
def processSnapshotEvent {T : Type} (s : CollectionState T) :
    SnapEvent T → CollectionState T
  | SnapEvent.dataEvent xs => onSnapshotCallback s xs
  | SnapEvent.errEvent _ => s

/-- The try/catch around subscription setup (useFirestore.ts lines
34-50): a synchronous throw from service.onSnapshot sets the hook's
error state and clears loading. -/
def setupSubscription {T : Type} (s : CollectionState T) (setupError : Option String) :
    CollectionState T :=
  match setupError with
  | some e => { s with error := some e, loading := false }
  | none => s

/-- The Notification entity of types.ts. -/
structure NotificationR where
  id : String
  userId : String
  completedChecklistId : String
  message : String
  read : Bool
  timestamp : String
deriving DecidableEq, Repr

/-- The state held by useNotifications (lines 218-220). -/
structure NotifState where
  notifications : List NotificationR
  loading : Bool
  error : Option String
deriving DecidableEq, Repr

/-- markAsRead (useFirestore.ts lines 255-265): after a successful
update it optimistically rewrites the local snapshot, mapping the
matching notification to read := true; on failure it sets error. -/
def markAsRead (s : NotifState) (nid : String) (result : Except String Unit) :
    NotifState :=
  match result with
  | Except.ok _ =>
    { s with notifications :=
        s.notifications.map fun n => if n.id = nid then { n with read := true } else n }
  | Except.error e => { s with error := some e }

/-! ## Generic Firestore service payloads (src/App.tsx lines 1592-1613)

A JavaScript object is an association list of (key, value) with
distinct keys in insertion order; property access on an absent key
yields undefined. -/

inductive JsVal where
  | undef
  | vnull
  | vstr (s : String)
  | vbool (b : Bool)
  | vnum (n : Int)
  | vtime (t : Nat)
deriving DecidableEq, Repr

/-- Keys of an object, in insertion order. -/
def jsKeys (o : List (String × JsVal)) : List String := o.map Prod.fst

/-- Property access: the first entry with the key, else undefined. -/
def jsLookup (o : List (String × JsVal)) (k : String) : JsVal :=
  match o.find? (fun kv => decide (kv.1 = k)) with
  | some kv => kv.2
  | none => JsVal.undef

/-- Property assignment `o[k] = v`: overwrite in place when present,
append otherwise. -/
def setKey (o : List (String × JsVal)) (k : String) (v : JsVal) :
    List (String × JsVal) :=
  if k ∈ jsKeys o then o.map fun kv => if kv.1 = k then (k, v) else kv
  else o ++ [(k, v)]

/-- The Object.entries loop of add/update (lines 1595-1597 and
1608-1610): copy every entry whose value is not undefined. -/
def stripUndefined (o : List (String × JsVal)) : List (String × JsVal) :=
  o.filter fun kv => decide (kv.2 ≠ JsVal.undef)

/-- FirestoreService.add payload (lines 1592-1601): strip undefined,
then stamp createdAt and updatedAt with Timestamp.now(). -/
def addPayload (data : List (String × JsVal)) (t : Nat) : List (String × JsVal) :=
  setKey (setKey (stripUndefined data) "createdAt" (JsVal.vtime t)) "updatedAt" (JsVal.vtime t)

/-- FirestoreService.update payload (lines 1605-1613): strip undefined,
then stamp updatedAt only. -/
def updatePayload (data : List (String × JsVal)) (t : Nat) : List (String × JsVal) :=
  setKey (stripUndefined data) "updatedAt" (JsVal.vtime t)

/-! ## createUser (src/hooks/useFirestore.ts lines 114-127) -/

/-- JavaScript truthiness of a value. -/
def truthy : JsVal → Bool
  | JsVal.undef => false
  | JsVal.vnull => false
  | JsVal.vstr s => decide (s ≠ "")
  | JsVal.vbool b => b
  | JsVal.vnum n => decide (n ≠ 0)
  | JsVal.vtime _ => true

/-- Rest-spread that drops one key: `const \x7b password, ...rest \x7d`. -/
def removeKey (o : List (String × JsVal)) (k : String) : List (String × JsVal) :=
  o.filter fun kv => decide (kv.1 ≠ k)

/-- Observable outcome of createUser: whether/what was sent to the
identity provider (email and password values), and the document passed
to add (which FirestoreService.add then turns into addPayload). -/
structure CreateUserResult where
  providerCalled : Option (JsVal × JsVal)
  storedDoc : List (String × JsVal)
deriving DecidableEq, Repr

/-- createUser (lines 114-127): `if (userData.password)` is a
truthiness test; when it holds, the identity provider is called with
the email and password, the password key is removed by rest-spread and
authUid is set to the returned localId; otherwise add receives the
input unchanged. -/
def createUser (userData : List (String × JsVal)) (localId : String) :
    CreateUserResult :=
  let pw := jsLookup userData "password"
  if truthy pw then
    { providerCalled := some (jsLookup userData "email", pw),
      storedDoc := setKey (removeKey userData "password") "authUid" (JsVal.vstr localId) }
  else
    { providerCalled := none, storedDoc := userData }

/-! ## Sample data used to instantiate theorems on concrete inputs -/

/-- A manager owning the sample unit. -/
def managerM1 : UserR := ⟨"m1", "Mario", "m1@x", Role.MANAGER, some "m1", none, none⟩

/-- A second manager, the technician's manager in the sample data. -/
def managerM2 : UserR := ⟨"m2", "Marcos", "m2@x", Role.MANAGER, some "m2", none, none⟩

/-- A coordinator whose id coincides with the unit manager's id. -/
def coordSameAsUnitManager : UserR :=
  ⟨"m1", "Carla", "carla@x", Role.COORDINATOR, none, none, none⟩

/-- An active coordinator distinct from both managers. -/
def coordC3 : UserR := ⟨"c3", "Cora", "c3@x", Role.COORDINATOR, none, none, none⟩

/-- A technician whose manager is m1 (same as the unit manager). -/
def techUser : UserR := ⟨"t1", "Tiago", "tiago@x", Role.TECHNICIAN, some "m1", none, none⟩

/-- A technician whose manager is m2 (distinct from the unit manager). -/
def techUserM2 : UserR := ⟨"t2", "Telma", "t2@x", Role.TECHNICIAN, some "m2", none, none⟩

/-- The sample unit, managed by m1. -/
def sampleUnit : UnitR := ⟨"u1", "Filial SP", "m1", none⟩

/-- Users cache for the role-overlap scenario. -/
def sampleUsers : List UserR := [coordSameAsUnitManager, managerM2, techUser, coordC3]

/-- Users cache for the distinct-managers scenario. -/
def sampleUsersB : List UserR := [managerM1, managerM2, techUserM2, coordC3]

/-- A sample unread notification held in the local cache. -/
def sampleNotification : NotificationR :=
  ⟨"n1", "m1", "cc1", "Não conformidade registrada", false, "2024-01-01"⟩

/-- A sample notifications-hook state with one unread notification. -/
def sampleNotifState : NotifState := ⟨[sampleNotification], false, none⟩

/-- A sample write payload exercising null, empty-string and undefined
values. -/
def sampleDoc : List (String × JsVal) :=
  [("name", JsVal.vstr "x"), ("obs", JsVal.vnull), ("note", JsVal.vstr ""),
   ("tmp", JsVal.undef)]

/-- A sample user-creation input with a non-empty password. -/
def sampleUserData : List (String × JsVal) :=
  [("name", JsVal.vstr "Ana"), ("email", JsVal.vstr "ana@x"),
   ("password", JsVal.vstr "secreta")]

/-- A sample user-creation input whose password key holds the empty
string (falsy in JavaScript). -/
def sampleUserDataEmptyPw : List (String × JsVal) :=
  [("name", JsVal.vstr "Ana"), ("email", JsVal.vstr "ana@x"),
   ("password", JsVal.vstr "")]

/-! ## Helper lemmas: the coordinator loop -/

theorem coordStep_notified (fails : String → Bool) (s : FanoutState) (cs : List UserR) :
    (coordStep fails s cs).notified = s.notified := by
  induction cs generalizing s with
  | nil => rfl
  | cons c rest ih =>
    simp only [coordStep]
    split
    · exact ih s
    · exact ih _

theorem coordStep_aborted (fails : String → Bool) (s : FanoutState) (cs : List UserR) :
    (coordStep fails s cs).aborted = s.aborted := by
  induction cs generalizing s with
  | nil => rfl
  | cons c rest ih =>
    simp only [coordStep]
    split
    · exact ih s
    · exact ih _

theorem coordStep_attempted (fails : String → Bool) (s : FanoutState) (cs : List UserR) :
    (coordStep fails s cs).attempted =
      s.attempted ++ (cs.filter fun c => decide (c.id ∉ s.notified)).map UserR.id := by
  induction cs generalizing s with
  | nil => simp [coordStep]
  | cons c rest ih =>
    simp only [coordStep, List.filter_cons]
    by_cases hc : c.id ∈ s.notified
    · simp [hc, ih s]
    · simp [hc, ih]

theorem coordStep_created (fails : String → Bool) (s : FanoutState) (cs : List UserR) :
    (coordStep fails s cs).created =
      s.created ++
        (((cs.filter fun c => decide (c.id ∉ s.notified)).map UserR.id).filter
          fun rid => !fails rid) := by
  induction cs generalizing s with
  | nil => simp [coordStep]
  | cons c rest ih =>
    simp only [coordStep, List.filter_cons]
    by_cases hc : c.id ∈ s.notified
    · simp [hc, ih s]
    · by_cases hf : fails c.id
      · simp [hc, hf, ih]
      · simp [hc, hf, ih]

/-! ## Helper lemmas: the state after the two manager steps -/

/-- Invariant holding before the coordinator loop under a no-failure
environment: not aborted, every attempted write succeeded and was
recorded in notifiedManagers, ids are pairwise distinct and all satisfy
P. -/
def CleanState (P : String → Prop) (s : FanoutState) : Prop :=
  s.aborted = false ∧ s.created = s.notified ∧ s.attempted = s.notified ∧
  s.notified.Nodup ∧ ∀ x ∈ s.notified, P x

theorem cleanState_init (P : String → Prop) :
    CleanState P ⟨[], [], [], false⟩ := by
  refine ⟨rfl, rfl, rfl, List.nodup_nil, ?_⟩
  intro x hx
  simp at hx

theorem notifyStep_clean {P : String → Prop} {s : FanoutState}
    (h : CleanState P s) {r : String} (hr : r ∉ s.notified) (hP : P r) :
    CleanState P (notifyStep noFail s r) := by
  obtain ⟨ha, hc, hat, hnd, hmem⟩ := h
  simp only [notifyStep, ha, noFail, Bool.false_eq_true, if_false]
  refine ⟨rfl, by simp [hc], by simp [hat], ?_, ?_⟩
  · simp only [List.nodup_append, List.nodup_cons, List.nodup_nil, List.disjoint_singleton]
    exact ⟨hnd, by simp, hr⟩
  · intro x hx
    rcases List.mem_append.mp hx with hx | hx
    · exact hmem x hx
    · rw [List.mem_singleton] at hx
      rw [hx]
      exact hP

theorem unitStep_clean {P : String → Prop} {unit : Option UnitR} {s : FanoutState}
    (h : CleanState P s)
    (hnot : ∀ u : UnitR, unit = some u → u.managerId ∉ s.notified)
    (hP : ∀ u : UnitR, unit = some u → u.managerId ≠ "" → P u.managerId) :
    CleanState P (unitStep noFail unit s) := by
  rcases unit with _ | u
  · simpa [unitStep] using h
  · simp only [unitStep]
    split_ifs with hm
    · exact notifyStep_clean h (hnot u rfl) (hP u rfl hm)
    · exact h

theorem techStep_clean {P : String → Prop} {raw : Option String} {tech : Option UserR}
    {s : FanoutState} (h : CleanState P s)
    (hP : ∀ (t : UserR) (tm : String), tech = some t → t.managerId = some tm → P tm) :
    CleanState P (techStep noFail raw tech s) := by
  rcases tech with _ | t
  · simpa [techStep] using h
  · simp only [techStep]
    rcases htm : t.managerId with _ | tm
    · exact h
    · dsimp only
      split_ifs with hcond
      · exact notifyStep_clean h hcond.2.2 (hP t tm rfl htm)
      · exact h

/-- The state reached after the unit-manager and technician-manager
writes of the fanout, under the no-failure environment, is clean with
respect to membership in the two manager roles. -/
theorem preFanout_clean (unit : Option UnitR) (tech : Option UserR) :
    CleanState
      (fun x => (∃ u, unit = some u ∧ u.managerId = x) ∨
        (∃ t, tech = some t ∧ t.managerId = some x))
      (techStep noFail (unit.map fun u => u.managerId) tech
        (unitStep noFail unit ⟨[], [], [], false⟩)) := by
  apply techStep_clean
  · apply unitStep_clean (cleanState_init _)
    · intro u hu
      simp
    · intro u hu hm
      exact Or.inl ⟨u, hu, rfl⟩
  · intro t tm ht htm
    exact Or.inr ⟨t, ht, htm⟩

theorem notifyStep_notified_mono (fails : String → Bool) (s : FanoutState) (r : String) :
    s.notified ⊆ (notifyStep fails s r).notified := by
  simp only [notifyStep]
  split_ifs <;> simp

theorem techStep_notified_mono (fails : String → Bool) (raw : Option String)
    (tech : Option UserR) (s : FanoutState) :
    s.notified ⊆ (techStep fails raw tech s).notified := by
  rcases tech with _ | t
  · simp [techStep]
  · simp only [techStep]
    rcases t.managerId with _ | tm
    · simp
    · dsimp only
      split_ifs with hcond
      · exact notifyStep_notified_mono fails s tm
      · simp

theorem unitStep_mem_init {unit : Option UnitR} {u : UnitR}
    (hu : unit = some u) (hm : u.managerId ≠ "") :
    u.managerId ∈ (unitStep noFail unit ⟨[], [], [], false⟩).notified := by
  subst hu
  simp [unitStep, notifyStep, noFail, hm]

/-- The result of the fanout, written via the coordinator-loop
characterization: manager-step state followed by the loop. -/
theorem fanout_eq_coordStep (users : List UserR) (unit : Option UnitR)
    (tech : Option UserR) :
    fanout users unit tech noFail =
      coordStep noFail
        (techStep noFail (unit.map fun u => u.managerId) tech
          (unitStep noFail unit ⟨[], [], [], false⟩))
        (users.filter fun u =>
          decide (u.role = Role.COORDINATOR) && decide (u.active ≠ some false)) := by
  have ha := (preFanout_clean unit tech).1
  simp only [fanout]
  rw [ha]
  simp

/-! ## Claim C1 -/

/-- C1: for a non-conforming checklist submission, the notification
fanout creates at most one Notification per recipient id regardless of
role overlap; every recipient is the unit's manager, the technician's
manager, or an active coordinator; and when unit.managerId,
technician.managerId and some active coordinator's id are all the same
id, exactly one Notification is created for that id. -/
theorem fanout_at_most_one_notification_per_recipient
    (users : List UserR) (unit : Option UnitR) (tech : Option UserR)
    (hids : (users.map UserR.id).Nodup) :
    (∀ rid : String, (fanout users unit tech noFail).created.count rid ≤ 1) ∧
    (∀ rid ∈ (fanout users unit tech noFail).created,
        (∃ u, unit = some u ∧ u.managerId = rid) ∨
        (∃ t, tech = some t ∧ t.managerId = some rid) ∨
        (∃ c ∈ users, c.id = rid ∧ c.role = Role.COORDINATOR ∧ c.active ≠ some false)) ∧
    (∀ (u : UnitR) (t : UserR) (m : String),
        unit = some u → u.managerId = m → m ≠ "" →
        tech = some t → t.managerId = some m →
        (∃ c ∈ users, c.id = m ∧ c.role = Role.COORDINATOR ∧ c.active ≠ some false) →
        (fanout users unit tech noFail).created.count m = 1) := by
  obtain ⟨ha, hc, hat, hnd, hmem⟩ := preFanout_clean unit tech
  rw [fanout_eq_coordStep users unit tech, coordStep_created]
  simp only [noFail, Bool.not_false, List.filter_true]
  set s2 := techStep noFail (Option.map (fun u => u.managerId) unit) tech
    (unitStep noFail unit ⟨[], [], [], false⟩) with hs2
  set coords := users.filter
    (fun u => decide (u.role = Role.COORDINATOR) && decide (u.active ≠ some false))
    with hcoords
  set R := (coords.filter fun c => decide (c.id ∉ s2.notified)).map UserR.id with hRdef
  have hsubl : List.Sublist (coords.filter fun c => decide (c.id ∉ s2.notified)) users :=
    (List.filter_sublist _).trans (List.filter_sublist _)
  have hndR : R.Nodup := hids.sublist (hsubl.map UserR.id)
  have hdisj : ∀ x ∈ R, x ∉ s2.notified := by
    intro x hx
    rw [hRdef] at hx
    obtain ⟨c, hcmem, rfl⟩ := List.mem_map.mp hx
    have h2 := (List.mem_filter.mp hcmem).2
    simpa using h2
  have hndAll : (s2.created ++ R).Nodup := by
    rw [List.nodup_append]
    refine ⟨hc ▸ hnd, hndR, ?_⟩
    intro a haL haR
    exact hdisj a haR (hc ▸ haL)
  refine ⟨?_, ?_, ?_⟩
  · intro rid
    exact List.nodup_iff_count_le_one.mp hndAll rid
  · intro rid hr
    rcases List.mem_append.mp hr with hr | hr
    · rcases hmem rid (hc ▸ hr) with h | h
      · exact Or.inl h
      · exact Or.inr (Or.inl h)
    · rw [hRdef] at hr
      obtain ⟨c, hcmem, rfl⟩ := List.mem_map.mp hr
      have hcoord := (List.mem_filter.mp hcmem).1
      rw [hcoords] at hcoord
      have h3 := List.mem_filter.mp hcoord
      have h4 := h3.2
      simp only [Bool.and_eq_true, decide_eq_true_eq] at h4
      exact Or.inr (Or.inr ⟨c, h3.1, rfl, h4.1, h4.2⟩)
  · intro u t m hu hmu hne ht htm hcoordEx
    have hmems2 : m ∈ s2.notified := by
      have h0 := unitStep_mem_init hu (by rw [hmu]; exact hne)
      have h1 := techStep_notified_mono noFail (Option.map (fun u => u.managerId) unit)
        tech (unitStep noFail unit ⟨[], [], [], false⟩)
      have h2 := h1 h0
      rw [hmu] at h2
      exact h2
    rw [List.count_append]
    have hcount1 : s2.created.count m = 1 := by
      rw [hc]
      exact List.count_eq_one_of_mem hnd hmems2
    have hcount0 : R.count m = 0 := by
      rw [List.count_eq_zero]
      intro hmm
      exact hdisj m hmm hmems2
    rw [hcount1, hcount0]

/-- Witness for C1: in the role-overlap scenario (unit manager m1,
technician's manager m1, an active coordinator with id m1) exactly one
notification is created for id m1. -/
theorem fanout_at_most_one_notification_per_recipient_witness :
    (sampleUsers.map UserR.id).Nodup ∧
    (fanout sampleUsers (some sampleUnit) (some techUser) noFail).created.count "m1" = 1 := by
  refine ⟨by decide, ?_⟩
  exact (fanout_at_most_one_notification_per_recipient sampleUsers (some sampleUnit)
    (some techUser) (by decide)).2.2 sampleUnit techUser "m1" rfl rfl (by decide) rfl rfl
    (by decide)

/-! ## Claim C2 -/

/-- C2: for a non-conforming submission, every user with role
COORDINATOR and active not equal to false ends up among the recipients
of created notifications (coordinators already covered as unit manager
or technician's manager were notified in those earlier steps). -/
theorem fanout_notifies_every_active_coordinator
    (users : List UserR) (unit : Option UnitR) (tech : Option UserR) (u : UserR)
    (hu : u ∈ users) (hrole : u.role = Role.COORDINATOR) (hact : u.active ≠ some false) :
    u.id ∈ (fanout users unit tech noFail).created := by
  obtain ⟨ha, hc, hat, hnd, hmem⟩ := preFanout_clean unit tech
  rw [fanout_eq_coordStep users unit tech, coordStep_created]
  simp only [noFail, Bool.not_false, List.filter_true]
  set s2 := techStep noFail (Option.map (fun u => u.managerId) unit) tech
    (unitStep noFail unit ⟨[], [], [], false⟩) with hs2
  rw [List.mem_append]
  by_cases hnotif : u.id ∈ s2.notified
  · exact Or.inl (hc ▸ hnotif)
  · refine Or.inr (List.mem_map.mpr ⟨u, ?_, rfl⟩)
    refine List.mem_filter.mpr ⟨?_, by simpa using hnotif⟩
    exact List.mem_filter.mpr ⟨hu, by simp [hrole, hact]⟩

/-- Witness for C2: the active coordinator c3 of the sample data is
among the created notification recipients. -/
theorem fanout_notifies_every_active_coordinator_witness :
    coordC3 ∈ sampleUsers ∧ coordC3.role = Role.COORDINATOR ∧
    coordC3.active ≠ some false ∧
    coordC3.id ∈ (fanout sampleUsers (some sampleUnit) (some techUser) noFail).created := by
  refine ⟨by decide, rfl, by decide, ?_⟩
  exact fanout_notifies_every_active_coordinator sampleUsers (some sampleUnit)
    (some techUser) coordC3 (by decide) rfl (by decide)

/-! ## Claim C3 -/

/-- C3 counterexample: when the unit manager's notification write
throws, the technician's manager and the coordinators are NOT
attempted — the outer catch of submitChecklist aborts the whole fanout
(the per-recipient try/catch only exists inside the coordinator loop).
Here the unit manager is m1, the technician's manager is m2 and c3 is
an active coordinator. -/
theorem fanout_unit_manager_failure_aborts_remaining :
    (fanout sampleUsersB (some sampleUnit) (some techUserM2)
      (fun rid => rid == "m1")).aborted = true ∧
    (fanout sampleUsersB (some sampleUnit) (some techUserM2)
      (fun rid => rid == "m1")).attempted = ["m1"] ∧
    "m2" ∉ (fanout sampleUsersB (some sampleUnit) (some techUserM2)
      (fun rid => rid == "m1")).attempted ∧
    "c3" ∉ (fanout sampleUsersB (some sampleUnit) (some techUserM2)
      (fun rid => rid == "m1")).attempted ∧
    (fanout sampleUsersB (some sampleUnit) (some techUserM2)
      (fun rid => rid == "m1")).created = [] := by
  decide

/-- C3 amended: only the coordinator-loop writes are individually
caught.  Provided the unit-manager and technician-manager writes do
not fail, the fanout never aborts, every candidate recipient is
attempted exactly as in the failure-free run, and the created
notifications are exactly the attempted ones whose write did not fail
— so one coordinator's failure does not prevent any other recipient. -/
theorem fanout_coordinator_failures_isolated
    (users : List UserR) (unit : Option UnitR) (tech : Option UserR)
    (fails : String → Bool)
    (hunit : ∀ u : UnitR, unit = some u → fails u.managerId = false)
    (htech : ∀ (t : UserR) (tm : String), tech = some t → t.managerId = some tm →
      fails tm = false) :
    (fanout users unit tech fails).aborted = false ∧
    (fanout users unit tech fails).attempted =
      (fanout users unit tech noFail).attempted ∧
    (fanout users unit tech fails).created =
      ((fanout users unit tech fails).attempted.filter fun rid => !fails rid) := by
  obtain ⟨ha, hc, hat, hnd, hmem⟩ := preFanout_clean unit tech
  have hu1 : unitStep fails unit ⟨[], [], [], false⟩ =
      unitStep noFail unit ⟨[], [], [], false⟩ := by
    rcases unit with _ | u
    · rfl
    · simp only [unitStep]
      split_ifs with hm
      · simp [notifyStep, noFail, hunit u rfl]
      · rfl
  have ht1 : techStep fails (Option.map (fun u => u.managerId) unit) tech
      (unitStep noFail unit ⟨[], [], [], false⟩) =
      techStep noFail (Option.map (fun u => u.managerId) unit) tech
      (unitStep noFail unit ⟨[], [], [], false⟩) := by
    rcases tech with _ | t
    · rfl
    · simp only [techStep]
      rcases htm : t.managerId with _ | tm
      · rfl
      · dsimp only
        split_ifs with hcond
        · simp [notifyStep, noFail, htech t tm rfl htm]
        · rfl
  have hfan : fanout users unit tech fails =
      coordStep fails
        (techStep noFail (Option.map (fun u => u.managerId) unit) tech
          (unitStep noFail unit ⟨[], [], [], false⟩))
        (users.filter fun u =>
          decide (u.role = Role.COORDINATOR) && decide (u.active ≠ some false)) := by
    simp only [fanout]
    rw [hu1, ht1, ha]
    simp
  set s2 := techStep noFail (Option.map (fun u => u.managerId) unit) tech
    (unitStep noFail unit ⟨[], [], [], false⟩) with hs2
  have hallok : ∀ x ∈ s2.notified, (!fails x) = true := by
    intro x hx
    rcases hmem x hx with ⟨u, hu', hux⟩ | ⟨t, ht', htx⟩
    · rw [← hux]
      simp [hunit u hu']
    · simp [htech t x ht' htx]
  refine ⟨?_, ?_, ?_⟩
  · rw [hfan, coordStep_aborted]
    exact ha
  · rw [hfan, fanout_eq_coordStep users unit tech, coordStep_attempted,
      coordStep_attempted]
  · rw [hfan, coordStep_created, coordStep_attempted, List.filter_append]
    have hkeep : s2.attempted.filter (fun rid => !fails rid) = s2.attempted := by
      rw [List.filter_eq_self]
      intro x hx
      exact hallok x (hat ▸ hx)
    rw [hkeep, hc, hat]

/-- Witness for C3 amended: with only the coordinator c3's write
failing, the fanout does not abort and attempts exactly the recipients
of the failure-free run. -/
theorem fanout_coordinator_failures_isolated_witness :
    (fanout sampleUsersB (some sampleUnit) (some techUserM2)
      (fun rid => rid == "c3")).aborted = false ∧
    (fanout sampleUsersB (some sampleUnit) (some techUserM2)
      (fun rid => rid == "c3")).attempted =
      (fanout sampleUsersB (some sampleUnit) (some techUserM2) noFail).attempted := by
  have h := fanout_coordinator_failures_isolated sampleUsersB (some sampleUnit)
    (some techUserM2) (fun rid => rid == "c3")
    (by
      intro u hu
      cases hu
      decide)
    (by
      intro t tm ht htm
      cases ht
      simp only [techUserM2] at htm
      cases htm
      decide)
  exact ⟨h.1, h.2.1⟩

/-! ## Claim C4 -/

/-- C4 counterexample: the notification read-acknowledgement DOES
modify the locally held snapshot without any subscription delivery:
after a successful markAsRead the cached notification list differs
from what the subscription last delivered. -/
theorem markAsRead_mutates_local_snapshot :
    (markAsRead sampleNotifState "n1" (Except.ok ())).notifications ≠
      sampleNotifState.notifications := by
  decide

/-- C4 amended: the generic collection-hook mutations add/update/remove
never modify the locally held snapshot (only the subscription callback
updates it), but markAsRead in the notifications hook optimistically
rewrites the local snapshot on success (and leaves it unchanged on
failure, setting only the error state). -/
theorem collection_mutations_preserve_snapshot {T : Type}
    (s : CollectionState T) (radd : Except String String)
    (rupd rrem : Except String Unit) (sn : NotifState) (nid e : String)
    (xs : List T) :
    ((hookAdd s radd).1.data = s.data) ∧
    ((hookUpdate s rupd).1.data = s.data) ∧
    ((hookRemove s rrem).1.data = s.data) ∧
    ((onSnapshotCallback s xs).data = xs) ∧
    ((markAsRead sn nid (Except.error e)).notifications = sn.notifications) ∧
    ((markAsRead sn nid (Except.ok ())).notifications =
      sn.notifications.map fun n => if n.id = nid then { n with read := true } else n) := by
  refine ⟨?_, ?_, ?_, rfl, rfl, rfl⟩
  · cases radd <;> rfl
  · cases rupd <;> rfl
  · cases rrem <;> rfl

/-! ## Claim C5 -/

/-- C5: when the identity provider accepts the credentials but the
domain user found by that email has active = false, the handler forces
an identity-provider sign-out and ends UNAUTHENTICATED with the current
user profile cleared. -/
theorem deactivated_account_forces_signout
    (fb : FbUser) (e : String) (he : fb.email = some e) (hne : e ≠ "")
    (u : UserR) (hact : u.active = some false)
    (provisionFails : Bool) (newId : String) (readBack : Option UserR) :
    authHandler (some fb) (some u) provisionFails newId readBack =
      ⟨AuthStatus.unauthenticated, some none, true, none⟩ := by
  simp [authHandler, he, hne, hact]

/-- Witness for C5 at a concrete deactivated user. -/
theorem deactivated_account_forces_signout_witness :
    authHandler (some ⟨some "ana@x", none⟩)
      (some ⟨"id1", "Ana", "ana@x", Role.MANAGER, none, some false, none⟩)
      false "nid" none =
      ⟨AuthStatus.unauthenticated, some none, true, none⟩ :=
  deactivated_account_forces_signout ⟨some "ana@x", none⟩ "ana@x" rfl (by decide)
    ⟨"id1", "Ana", "ana@x", Role.MANAGER, none, some false, none⟩ rfl false "nid" none

/-! ## Claim C6 -/

/-- C6: with a verified identity whose email matches no domain user,
the handler provisions a minimal profile with default role MANAGER
keyed by that email; on provisioning success it ends AUTHENTICATED with
a profile set, and on provisioning failure it forces a sign-out and
ends UNAUTHENTICATED. -/
theorem auto_provision_default_manager_or_signout
    (fb : FbUser) (e : String) (he : fb.email = some e) (hne : e ≠ "")
    (provisionFails : Bool) (newId : String) (readBack : Option UserR) :
    ((authHandler (some fb) none provisionFails newId readBack).provisioned =
        some ⟨displayNameOf fb.displayName e, e, Role.MANAGER⟩) ∧
    (provisionFails = false →
      (authHandler (some fb) none provisionFails newId readBack).status =
          AuthStatus.authenticated ∧
        ∃ cu : UserR,
          (authHandler (some fb) none provisionFails newId readBack).currentUser =
            some (some cu)) ∧
    (provisionFails = true →
      (authHandler (some fb) none provisionFails newId readBack).status =
          AuthStatus.unauthenticated ∧
        (authHandler (some fb) none provisionFails newId readBack).signedOut = true) := by
  cases provisionFails with
  | false => cases readBack <;> simp [authHandler, he, hne]
  | true => simp [authHandler, he, hne]

/-- Witness for C6: a first-time identity is provisioned with role
MANAGER and the session ends authenticated. -/
theorem auto_provision_default_manager_or_signout_witness :
    ((authHandler (some ⟨some "novo@x", none⟩) none false "nid" none).provisioned =
      some ⟨displayNameOf none "novo@x", "novo@x", Role.MANAGER⟩) ∧
    (authHandler (some ⟨some "novo@x", none⟩) none false "nid" none).status =
      AuthStatus.authenticated := by
  have h := auto_provision_default_manager_or_signout ⟨some "novo@x", none⟩ "novo@x"
    rfl (by decide) false "nid" none
  exact ⟨h.1, (h.2.1 rfl).1⟩

/-! ## Claim C7 -/

/-- C7: the stored hasNonConformities flag is true iff at least one
entry of the submission's results has status NON_CONFORM, and it is
false for an empty results sequence. -/
theorem hasNonConformities_iff_some_non_conform
    (data : ChecklistSubmission) (now : String) :
    ((buildCompletedChecklist data now).hasNonConformities = true ↔
      ∃ r ∈ data.results, r.status = some ChecklistItemStatus.NON_CONFORM) ∧
    (data.results = [] → (buildCompletedChecklist data now).hasNonConformities = false) := by
  constructor
  · simp [buildCompletedChecklist, hasNonConformities, List.any_eq_true]
  · intro h
    simp [buildCompletedChecklist, hasNonConformities, h]

/-- Witness for C7: a submission with empty results is stored with
hasNonConformities = false. -/
theorem hasNonConformities_iff_some_non_conform_witness :
    (buildCompletedChecklist ⟨"tpl", "u9", "t9", []⟩ "2024-01-01").hasNonConformities =
      false :=
  (hasNonConformities_iff_some_non_conform ⟨"tpl", "u9", "t9", []⟩ "2024-01-01").2 rfl

/-! ## Claim C9 -/

/-- C9 counterexample: an error reported by the underlying subscribe
channel leaves the consumer's cache state completely unchanged — in
particular the error state stays none, so the consumer is not notified
through any error channel. -/
theorem subscription_error_not_surfaced :
    (processSnapshotEvent (⟨[], true, none⟩ : CollectionState NotificationR)
        (SnapEvent.errEvent "listen failed")).error = none ∧
    processSnapshotEvent (⟨[], true, none⟩ : CollectionState NotificationR)
        (SnapEvent.errEvent "listen failed") =
      (⟨[], true, none⟩ : CollectionState NotificationR) :=
  ⟨rfl, rfl⟩

/-- C9 amended: only a synchronous throw while setting up the
subscription reaches the hook's error state; an asynchronous error
delivered on the subscribe channel is logged to the console only and
leaves the consumer's cache state (data, loading, error) unchanged. -/
theorem subscription_error_logged_only {T : Type} (s : CollectionState T)
    (e msg : String) :
    processSnapshotEvent s (SnapEvent.errEvent e) = s ∧
    (setupSubscription s (some msg)).error = some msg ∧
    (setupSubscription s (some msg)).loading = false :=
  ⟨rfl, rfl, rfl⟩

/-! ## Helper lemmas: JavaScript objects as association lists -/

theorem jsLookup_nil (k : String) : jsLookup [] k = JsVal.undef := rfl

theorem jsLookup_cons (k0 : String) (v0 : JsVal) (tl : List (String × JsVal))
    (k : String) :
    jsLookup ((k0, v0) :: tl) k = if k0 = k then v0 else jsLookup tl k := by
  by_cases h : k0 = k
  · simp [jsLookup, List.find?, h]
  · simp [jsLookup, List.find?, h]

theorem jsLookup_eq_undef_of_not_mem {o : List (String × JsVal)} {k : String}
    (h : k ∉ jsKeys o) : jsLookup o k = JsVal.undef := by
  induction o with
  | nil => rfl
  | cons kv tl ih =>
    obtain ⟨k0, v0⟩ := kv
    simp only [jsKeys, List.map_cons, List.mem_cons, not_or] at h
    rw [jsLookup_cons, if_neg (fun he => h.1 he.symm)]
    exact ih (by simpa [jsKeys] using h.2)

theorem jsLookup_of_mem_nodup {o : List (String × JsVal)} {k : String} {v : JsVal}
    (hnd : (jsKeys o).Nodup) (hkv : (k, v) ∈ o) : jsLookup o k = v := by
  induction o with
  | nil => cases hkv
  | cons kv tl ih =>
    obtain ⟨k0, v0⟩ := kv
    simp only [jsKeys, List.map_cons, List.nodup_cons] at hnd
    rcases List.mem_cons.mp hkv with h | h
    · obtain ⟨h1, h2⟩ := Prod.mk.injEq .. ▸ h
      rw [jsLookup_cons, if_pos h1.symm]
      exact h2.symm
    · have hk0 : k0 ≠ k := by
        intro he
        subst he
        exact hnd.1 (List.mem_map.mpr ⟨(k0, v), h, rfl⟩)
      rw [jsLookup_cons, if_neg hk0]
      exact ih (by simpa [jsKeys] using hnd.2) h

theorem jsLookup_append (o₁ o₂ : List (String × JsVal)) (k : String) :
    jsLookup (o₁ ++ o₂) k =
      if k ∈ jsKeys o₁ then jsLookup o₁ k else jsLookup o₂ k := by
  induction o₁ with
  | nil => simp [jsKeys]
  | cons kv tl ih =>
    obtain ⟨k0, v0⟩ := kv
    by_cases h : k0 = k
    · simp [jsLookup_cons, jsKeys, h]
    · simp only [List.cons_append, jsLookup_cons, if_neg h, ih, jsKeys,
        List.map_cons, List.mem_cons]
      by_cases hm : k ∈ List.map Prod.fst tl
      · simp [jsKeys, hm]
      · have hne : ¬k = k0 := fun he => h he.symm
        simp [jsKeys, hm, hne]

theorem jsKeys_map_set (o : List (String × JsVal)) (k : String) (v : JsVal) :
    jsKeys (o.map fun kv => if kv.1 = k then (k, v) else kv) = jsKeys o := by
  induction o with
  | nil => rfl
  | cons kv tl ih =>
    obtain ⟨k0, v0⟩ := kv
    simp only [jsKeys, List.map_cons] at ih ⊢
    by_cases h : k0 = k
    · subst h
      rw [if_pos rfl, ih]
    · rw [if_neg h, ih]

theorem mem_jsKeys_setKey (o : List (String × JsVal)) (k : String) (v : JsVal)
    (k' : String) :
    k' ∈ jsKeys (setKey o k v) ↔ k' ∈ jsKeys o ∨ k' = k := by
  unfold setKey
  split_ifs with h
  · rw [jsKeys_map_set]
    constructor
    · exact Or.inl
    · intro hh
      rcases hh with hh | hh
      · exact hh
      · exact hh ▸ h
  · simp [jsKeys]

theorem jsLookup_map_set_self {o : List (String × JsVal)} {k : String} (v : JsVal)
    (h : k ∈ jsKeys o) :
    jsLookup (o.map fun kv => if kv.1 = k then (k, v) else kv) k = v := by
  induction o with
  | nil => simp [jsKeys] at h
  | cons kv tl ih =>
    obtain ⟨k0, v0⟩ := kv
    by_cases h0 : k0 = k
    · simp only [List.map_cons, if_pos h0]
      rw [jsLookup_cons, if_pos rfl]
    · simp only [List.map_cons, if_neg h0]
      rw [jsLookup_cons, if_neg h0]
      apply ih
      simp only [jsKeys, List.map_cons, List.mem_cons] at h
      rcases h with h | h
      · exact absurd h.symm h0
      · exact h

theorem jsLookup_setKey_self (o : List (String × JsVal)) (k : String) (v : JsVal) :
    jsLookup (setKey o k v) k = v := by
  unfold setKey
  split_ifs with h
  · exact jsLookup_map_set_self v h
  · rw [jsLookup_append, if_neg h, jsLookup_cons, if_pos rfl]

theorem jsLookup_map_set_ne {o : List (String × JsVal)} {k k' : String} (v : JsVal)
    (h : k' ≠ k) :
    jsLookup (o.map fun kv => if kv.1 = k then (k, v) else kv) k' = jsLookup o k' := by
  induction o with
  | nil => rfl
  | cons kv tl ih =>
    obtain ⟨k0, v0⟩ := kv
    by_cases h0 : k0 = k
    · simp only [List.map_cons, if_pos h0]
      rw [jsLookup_cons, jsLookup_cons, if_neg (fun he => h he.symm),
        if_neg (fun he : k0 = k' => h (h0 ▸ he).symm)]
      exact ih
    · simp only [List.map_cons, if_neg h0]
      rw [jsLookup_cons, jsLookup_cons]
      by_cases h1 : k0 = k'
      · rw [if_pos h1, if_pos h1]
      · rw [if_neg h1, if_neg h1]
        exact ih

theorem jsLookup_setKey_ne (o : List (String × JsVal)) (k : String) (v : JsVal)
    {k' : String} (h : k' ≠ k) :
    jsLookup (setKey o k v) k' = jsLookup o k' := by
  unfold setKey
  split_ifs with hm
  · exact jsLookup_map_set_ne v h
  · rw [jsLookup_append]
    by_cases h2 : k' ∈ jsKeys o
    · rw [if_pos h2]
    · rw [if_neg h2, jsLookup_cons, if_neg (fun he => h he.symm), jsLookup_nil,
        jsLookup_eq_undef_of_not_mem h2]

theorem jsKeys_stripUndefined_subset {o : List (String × JsVal)} {k : String}
    (h : k ∈ jsKeys (stripUndefined o)) : k ∈ jsKeys o := by
  simp only [jsKeys] at h ⊢
  obtain ⟨kv, hkv, rfl⟩ := List.mem_map.mp h
  exact List.mem_map.mpr ⟨kv, List.mem_filter.mp hkv |>.1, rfl⟩

theorem jsLookup_stripUndefined {o : List (String × JsVal)}
    (hnd : (jsKeys o).Nodup) (k : String) :
    jsLookup (stripUndefined o) k = jsLookup o k := by
  induction o with
  | nil => rfl
  | cons kv tl ih =>
    obtain ⟨k0, v0⟩ := kv
    simp only [jsKeys, List.map_cons, List.nodup_cons] at hnd
    have hndtl : (jsKeys tl).Nodup := hnd.2
    by_cases hv : v0 = JsVal.undef
    · have hstep : stripUndefined ((k0, v0) :: tl) = stripUndefined tl := by
        simp [stripUndefined, List.filter_cons, hv]
      rw [hstep, jsLookup_cons, ih hndtl]
      by_cases hk : k0 = k
      · subst hk
        rw [if_pos rfl, hv]
        exact jsLookup_eq_undef_of_not_mem (by simpa [jsKeys] using hnd.1)
      · rw [if_neg hk]
    · have hstep : stripUndefined ((k0, v0) :: tl) = (k0, v0) :: stripUndefined tl := by
        simp [stripUndefined, List.filter_cons, hv]
      rw [hstep, jsLookup_cons, jsLookup_cons, ih hndtl]

theorem mem_jsKeys_stripUndefined {o : List (String × JsVal)}
    (hnd : (jsKeys o).Nodup) (k : String) :
    k ∈ jsKeys (stripUndefined o) ↔ jsLookup o k ≠ JsVal.undef := by
  constructor
  · intro h
    simp only [jsKeys] at h
    obtain ⟨⟨k1, v1⟩, hkv, hfst⟩ := List.mem_map.mp h
    obtain ⟨hmem, hv⟩ := List.mem_filter.mp hkv
    simp only [decide_eq_true_eq] at hv
    cases hfst
    rw [jsLookup_of_mem_nodup hnd hmem]
    exact hv
  · intro h
    by_contra hmem
    rw [← jsLookup_stripUndefined hnd k] at h
    exact h (jsLookup_eq_undef_of_not_mem hmem)

/-! ## Claim C8 -/

/-- C8: for every add and update through the store adapter, the
outgoing payload holds exactly the input's keys whose value is not
undefined (null and empty-string values are kept with their values
preserved), plus the stamped timestamp fields: createdAt and updatedAt
on add, updatedAt on update; undefined-valued keys are never sent. -/
theorem service_payloads_strip_undefined_and_stamp
    (data : List (String × JsVal)) (t : Nat) (hnd : (jsKeys data).Nodup) :
    (jsLookup (addPayload data t) "createdAt" = JsVal.vtime t) ∧
    (jsLookup (addPayload data t) "updatedAt" = JsVal.vtime t) ∧
    (∀ k, k ≠ "createdAt" → k ≠ "updatedAt" →
      jsLookup (addPayload data t) k = jsLookup data k ∧
      (k ∈ jsKeys (addPayload data t) ↔ jsLookup data k ≠ JsVal.undef)) ∧
    (jsLookup (updatePayload data t) "updatedAt" = JsVal.vtime t) ∧
    (∀ k, k ≠ "updatedAt" →
      jsLookup (updatePayload data t) k = jsLookup data k ∧
      (k ∈ jsKeys (updatePayload data t) ↔ jsLookup data k ≠ JsVal.undef)) := by
  refine ⟨?_, ?_, ?_, ?_, ?_⟩
  · rw [addPayload, jsLookup_setKey_ne _ _ _ (by decide), jsLookup_setKey_self]
  · rw [addPayload, jsLookup_setKey_self]
  · intro k hk1 hk2
    constructor
    · rw [addPayload, jsLookup_setKey_ne _ _ _ hk2, jsLookup_setKey_ne _ _ _ hk1,
        jsLookup_stripUndefined hnd]
    · rw [addPayload, mem_jsKeys_setKey, mem_jsKeys_setKey]
      simp only [hk1, hk2, or_false]
      exact mem_jsKeys_stripUndefined hnd k
  · rw [updatePayload, jsLookup_setKey_self]
  · intro k hk
    constructor
    · rw [updatePayload, jsLookup_setKey_ne _ _ _ hk, jsLookup_stripUndefined hnd]
    · rw [updatePayload, mem_jsKeys_setKey]
      simp only [hk, or_false]
      exact mem_jsKeys_stripUndefined hnd k

/-- Witness for C8: on the sample payload the undefined-valued key tmp
is not sent, the null-valued key obs is kept as null, the empty-string
key note is kept, and the stamps are present. -/
theorem service_payloads_strip_undefined_and_stamp_witness :
    (jsKeys sampleDoc).Nodup ∧
    "tmp" ∉ jsKeys (addPayload sampleDoc 5) ∧
    jsLookup (addPayload sampleDoc 5) "obs" = JsVal.vnull ∧
    jsLookup (addPayload sampleDoc 5) "note" = JsVal.vstr "" ∧
    jsLookup (addPayload sampleDoc 5) "createdAt" = JsVal.vtime 5 := by
  have h := service_payloads_strip_undefined_and_stamp sampleDoc 5 (by decide)
  refine ⟨by decide, ?_, ?_, ?_, h.1⟩
  · intro hmem
    have h3 := (h.2.2.1 "tmp" (by decide) (by decide)).2.mp hmem
    exact h3 (by decide)
  · rw [(h.2.2.1 "obs" (by decide) (by decide)).1]
    decide
  · rw [(h.2.2.1 "note" (by decide) (by decide)).1]
    decide

/-! ## Claim C10 -/

theorem jsKeys_removeKey_not_mem (o : List (String × JsVal)) (k : String) :
    k ∉ jsKeys (removeKey o k) := by
  intro h
  simp only [jsKeys] at h
  obtain ⟨kv, hkv, hfst⟩ := List.mem_map.mp h
  have := (List.mem_filter.mp hkv).2
  simp only [decide_eq_true_eq] at this
  exact this hfst

theorem jsLookup_removeKey_ne (o : List (String × JsVal)) (k : String)
    {k' : String} (h : k' ≠ k) :
    jsLookup (removeKey o k) k' = jsLookup o k' := by
  induction o with
  | nil => rfl
  | cons kv tl ih =>
    obtain ⟨k0, v0⟩ := kv
    by_cases h0 : k0 = k
    · have hstep : removeKey ((k0, v0) :: tl) k = removeKey tl k := by
        simp [removeKey, List.filter_cons, h0]
      rw [hstep, ih, jsLookup_cons, if_neg (fun he => h (h0 ▸ he).symm)]
    · have hstep : removeKey ((k0, v0) :: tl) k = (k0, v0) :: removeKey tl k := by
        simp [removeKey, List.filter_cons, h0]
      rw [hstep, jsLookup_cons, jsLookup_cons, ih]

/-- C10 counterexample: an input whose password key holds the empty
string DOES include a password, yet createUser does not call the
identity provider and the empty-string password key IS written to the
users collection (the truthiness test treats it as absent). -/
theorem createUser_empty_password_stored :
    ¬((createUser sampleUserDataEmptyPw "uid1").providerCalled ≠ none ∧
      jsLookup (createUser sampleUserDataEmptyPw "uid1").storedDoc "password" =
        JsVal.undef) ∧
    (createUser sampleUserDataEmptyPw "uid1").providerCalled = none ∧
    jsLookup (createUser sampleUserDataEmptyPw "uid1").storedDoc "password" =
      JsVal.vstr "" := by
  decide

/-- C10 amended: for every user-creation input whose password key holds
a NON-EMPTY string, createUser calls the identity provider with the
input's email and password and then persists a document holding all
input fields except the password key, plus authUid set to the returned
localId; every field other than authUid is independent of the password
value.  (An empty or absent password skips the provider and persists
the input as-is.) -/
theorem createUser_strips_password
    (userData : List (String × JsVal)) (localId : String) (p : String)
    (hp : jsLookup userData "password" = JsVal.vstr p) (hne : p ≠ "") :
    ((createUser userData localId).providerCalled =
        some (jsLookup userData "email", JsVal.vstr p)) ∧
    (jsLookup (createUser userData localId).storedDoc "password" = JsVal.undef) ∧
    (jsLookup (createUser userData localId).storedDoc "authUid" =
        JsVal.vstr localId) ∧
    (∀ k, k ≠ "password" → k ≠ "authUid" →
      jsLookup (createUser userData localId).storedDoc k = jsLookup userData k) ∧
    (∀ (userData2 : List (String × JsVal)) (localId2 : String) (q : String),
      jsLookup userData2 "password" = JsVal.vstr q → q ≠ "" →
      (∀ k, k ≠ "password" → jsLookup userData2 k = jsLookup userData k) →
      ∀ k, k ≠ "authUid" →
        jsLookup (createUser userData2 localId2).storedDoc k =
          jsLookup (createUser userData localId).storedDoc k) := by
  have htr : truthy (jsLookup userData "password") = true := by
    rw [hp]
    simpa [truthy] using hne
  have hcu : createUser userData localId =
      { providerCalled := some (jsLookup userData "email", jsLookup userData "password"),
        storedDoc := setKey (removeKey userData "password") "authUid"
          (JsVal.vstr localId) } := by
    rw [createUser]
    simp [htr]
  refine ⟨?_, ?_, ?_, ?_, ?_⟩
  · rw [hcu, hp]
  · rw [hcu]
    simp only
    rw [jsLookup_setKey_ne _ _ _ (by decide)]
    exact jsLookup_eq_undef_of_not_mem (jsKeys_removeKey_not_mem userData "password")
  · rw [hcu]
    simp only
    exact jsLookup_setKey_self _ _ _
  · intro k hk1 hk2
    rw [hcu]
    simp only
    rw [jsLookup_setKey_ne _ _ _ hk2, jsLookup_removeKey_ne _ _ hk1]
  · intro userData2 localId2 q hq hqne hagree k hk
    have htr2 : truthy (jsLookup userData2 "password") = true := by
      rw [hq]
      simpa [truthy] using hqne
    have hcu2 : createUser userData2 localId2 =
        { providerCalled :=
            some (jsLookup userData2 "email", jsLookup userData2 "password"),
          storedDoc := setKey (removeKey userData2 "password") "authUid"
            (JsVal.vstr localId2) } := by
      rw [createUser]
      simp [htr2]
    by_cases hkp : k = "password"
    · subst hkp
      rw [hcu, hcu2]
      simp only
      rw [jsLookup_setKey_ne _ _ _ (by decide), jsLookup_setKey_ne _ _ _ (by decide),
        jsLookup_eq_undef_of_not_mem (jsKeys_removeKey_not_mem userData2 "password"),
        jsLookup_eq_undef_of_not_mem (jsKeys_removeKey_not_mem userData "password")]
    · rw [hcu, hcu2]
      simp only
      rw [jsLookup_setKey_ne _ _ _ hk, jsLookup_setKey_ne _ _ _ hk,
        jsLookup_removeKey_ne _ _ hkp, jsLookup_removeKey_ne _ _ hkp]
      exact hagree k hkp

/-- Witness for C10 amended: at a concrete non-empty password the
provider is called, the stored document omits the password and carries
authUid, and the name field is preserved. -/
theorem createUser_strips_password_witness :
    jsLookup sampleUserData "password" = JsVal.vstr "secreta" ∧
    "secreta" ≠ "" ∧
    (createUser sampleUserData "uid7").providerCalled =
      some (JsVal.vstr "ana@x", JsVal.vstr "secreta") ∧
    jsLookup (createUser sampleUserData "uid7").storedDoc "password" = JsVal.undef ∧
    jsLookup (createUser sampleUserData "uid7").storedDoc "authUid" =
      JsVal.vstr "uid7" := by
  have h := createUser_strips_password sampleUserData "uid7" "secreta" rfl (by decide)
  exact ⟨rfl, by decide, h.1, h.2.1, h.2.2.1⟩

end ChecklistApp
